import Mathlib

/-!
# Verification of the HL7 v2 Message Validator / Auto-Correct corrector

Shallow embedding of the correction engine of this repository:

* `src/hl7_code_tables.py` — the code-table registry (`is_valid_code`,
  `find_similar_code`).  The registry contents are loaded at run time from a
  JSON file that is not part of the sources, so every definition is
  parameterised by a `Registry` value; a table's code *set* (a Python `set`)
  is embedded as the list of its elements in the set's (unspecified)
  enumeration order.
* `src/hl7_corrector.py` — `HL7MessageCorrector`: BOM removal, XML
  declaration insertion, data-driven code corrections, empty-required-field
  fixes and the Gazelle error-driven fixers, together with `prepare_message`.
* the correction loop of `retry_auto_correct` in `src/dashboard_app.py`,
  with the external validator (a subprocess plus output parsing) abstracted
  as an oracle that yields, per iteration, the parsed status string and the
  parsed error list.

Python strings are embedded as `List Char` (`Str`), bytes as `List Nat`.
Python regular-expression operations occurring in the sources are embedded
by dedicated matchers; each of the concrete patterns involved is
deterministic (every quantified character class is disjoint from the literal
that follows it), so maximal-munch scanning reproduces the backtracking
semantics.  `str.replace` and `re.sub` replace every non-overlapping
occurrence left to right, which the fuel-indexed `replaceAll`/`subst`
functions below reproduce; the fuel is always instantiated with the length
of the subject string, which the length decrease of each step makes
sufficient.  `str.lower`/`str.upper` are embedded on the ASCII range (the
only one exercised by the literals of the sources).
-/

/-- Python strings, embedded as lists of characters. -/
abbrev Str := List Char

/-- Shorthand turning a Lean string literal into the embedded type. -/
def S (s : String) : Str := s.data

/-- Python whitespace: the characters stripped by `str.strip()` and matched
by the regex class `\s` (both use `str.isspace`). -/
def pyWs (c : Char) : Bool :=
  let n := c.toNat
  (9 ≤ n && n ≤ 13) || n == 32 || (28 ≤ n && n ≤ 31) || n == 0x85 ||
    n == 0xA0 || n == 0x1680 || (0x2000 ≤ n && n ≤ 0x200A) || n == 0x2028 ||
    n == 0x2029 || n == 0x202F || n == 0x205F || n == 0x3000

/-- ASCII decimal digit, the regex class `\d` restricted to the ASCII range
(Python only ever sees ASCII digits in the locations concerned). -/
def isDigitCh (c : Char) : Bool := 48 ≤ c.toNat && c.toNat ≤ 57

/-- ASCII upper-case letter, the regex class `[A-Z]`. -/
def isUpperCh (c : Char) : Bool := 65 ≤ c.toNat && c.toNat ≤ 90

/-- ASCII restriction of the regex class `\w` (`[a-zA-Z0-9_]`). -/
def isWordCh (c : Char) : Bool :=
  isDigitCh c || isUpperCh c || (97 ≤ c.toNat && c.toNat ≤ 122) || c.toNat == 95

/-- ASCII `str.lower`. -/
def lowerAscii (s : Str) : Str :=
  s.map fun c => if isUpperCh c then Char.ofNat (c.toNat + 32) else c

/-- ASCII `str.upper`. -/
def upperAscii (s : Str) : Str :=
  s.map fun c => if 97 ≤ c.toNat && c.toNat ≤ 122 then Char.ofNat (c.toNat - 32) else c

/-- Python's substring test `pat in s`. -/
def containsSub (s pat : Str) : Bool :=
  pat.isPrefixOf s ||
    match s with
    | [] => false
    | _ :: t => containsSub t pat

/-- One step of Python `str.replace`: with `fuel ≥ s.length` this replaces
every non-overlapping occurrence of `pat` in `s` by `rep`, left to right.
(`pat` is never empty at any call site of the sources.) -/
def replaceAllFuel (fuel : Nat) (s pat rep : Str) : Str :=
  match fuel, s with
  | 0, s => s
  | _, [] => []
  | fuel + 1, c :: t =>
    if pat ≠ [] && pat.isPrefixOf (c :: t) then
      rep ++ replaceAllFuel fuel ((c :: t).drop pat.length) pat rep
    else
      c :: replaceAllFuel fuel t pat rep

/-- Python `s.replace(pat, rep)` (all occurrences, non-overlapping). -/
def replaceAll (s pat rep : Str) : Str := replaceAllFuel s.length s pat rep

/-! ## Code tables (`src/hl7_code_tables.py`)

`HL7CodeTableManager` stores `Dict[str, Set[str]]`.  A Python `dict` with
distinct keys is embedded as an association list, and each table's `set` of
codes as the list of its elements in the set's enumeration order — an order
the Python semantics leaves unspecified (it depends on string hashing, which
is randomised per process).  All registry contents come from a JSON data
file that is not part of the sources, so the registry is a parameter. -/

/-- The loaded code tables: table name ↦ codes in enumeration order. -/
abbrev Registry := List (Str × List Str)

/-- `self.code_tables[table_name]` lookup (`table_name not in self.code_tables`
is the `none` case). -/
def lookupTable (reg : Registry) (table : Str) : Option (List Str) :=
  List.lookup table reg

/-- `HL7CodeTableManager.is_valid_code` (src/hl7_code_tables.py:68-85):
absent table ⇒ `False`, otherwise set membership. -/
def is_valid_code (reg : Registry) (table code : Str) : Bool :=
  match lookupTable reg table with
  | none => false
  | some codes => codes.contains code

/-- `HL7CodeTableManager.find_similar_code` (src/hl7_code_tables.py:104-146).
The `invalid_code` argument is accepted but never used by the body.
`valid_codes = list(self.code_tables[table_name])` is the set in enumeration
order; the preference branches for HL70070 / HL70301 fall through to
`valid_codes[0]` when their preferred codes are absent.  The early
`return`s of the Python body are linearised into an if-chain. -/
def find_similar_code (reg : Registry) (table _invalidCode : Str) : Option Str :=
  match lookupTable reg table with
  | none => none
  | some validCodes =>
    if validCodes.length == 0 then none
    else if table == S "HL70070" && validCodes.contains (S "SER") then
      some (S "SER")
    else if table == S "HL70070" && validCodes.contains (S "BLD") then
      some (S "BLD")
    else if table == S "HL70070" && validCodes.contains (S "OTH") then
      some (S "OTH")
    else if table == S "HL70301" && validCodes.contains (S "L") then
      some (S "L")
    else validCodes.head?

/-- Lexicographic `≤` on embedded strings (Python string comparison). -/
def lexLe : Str → Str → Bool
  | [], _ => true
  | _ :: _, [] => false
  | a :: as, b :: bs => if a = b then lexLe as bs else decide (a.toNat < b.toNat)

/-- The lexicographically first element of a code list — the value the spec
says the fallback of `find_similar_code` returns (this definition follows
the spec's words, for comparison with the code's behaviour). -/
def lexFirst (codes : List Str) : Option Str :=
  codes.foldl
    (fun acc c =>
      match acc with
      | none => some c
      | some a => if lexLe a c then some a else some c)
    none

/-! ## The corrector (`src/hl7_corrector.py`)

`HL7MessageCorrector` appends dict records to `self.corrections_made`; the
records are embedded as an inductive type whose constructors carry the
fields that distinguish one record from another (the fixed free-text fields
of each dict — `description`, `reason`, `source`, … — are determined by the
constructor and are not repeated). -/

/-- One entry of `self.corrections_made`. -/
inductive CorrectionRecord where
  /-- `{'type': 'BOM_REMOVAL', ...}` appended by `_remove_bom`. -/
  | bomRemoval : CorrectionRecord
  /-- `{'type': 'XML_DECLARATION', ...}` appended by `_ensure_xml_declaration`. -/
  | xmlDeclaration : CorrectionRecord
  /-- `{'type': 'CODE_FIX', ...}` appended by `_apply_code_corrections`. -/
  | codeFix (oldValue newValue table : Str) : CorrectionRecord
  /-- `{'type': 'FIELD_INSERTION', ...}` appended by `_fix_empty_required_fields`. -/
  | fieldInsertion : CorrectionRecord
  /-- `{'type': 'GAZELLE_FIX', ...}` appended by `_fix_missing_field`
  (`reason` is the Gazelle error description). -/
  | gazelleMissingField (location reason : Str) : CorrectionRecord
  /-- `{'type': 'GAZELLE_FIX', 'new_value': '(empty)', ...}` appended by the
  code-system branch of `_fix_invalid_code`. -/
  | gazelleCodeSystemFix (oldSystem code table reason : Str) : CorrectionRecord
  /-- `{'type': 'GAZELLE_FIX', ...}` appended by the value-replacement branch
  of `_fix_invalid_code`. -/
  | gazelleCodeFix (oldValue newValue table reason : Str) : CorrectionRecord
  /-- `{'type': 'GAZELLE_FIX', ...}` appended by `_fix_missing_component`. -/
  | gazelleMissingComponent (location reason : Str) : CorrectionRecord
deriving DecidableEq, Repr

/-- One Gazelle error dict, with the keys read by
`_apply_gazelle_error_fixes` (`error.get(..., '')`). -/
structure GazelleError where
  etype : Str
  location : Str
  description : Str
  priority : Str
  severity : Str
deriving DecidableEq, Repr

/-- `_remove_bom` (src/hl7_corrector.py:67-78): drop a single leading
U+FEFF and record the removal. -/
def remove_bom (content : Str) : Str × List CorrectionRecord :=
  if [Char.ofNat 0xFEFF].isPrefixOf content then
    (content.drop 1, [.bomRemoval])
  else (content, [])

/-- The literal prepended by `_ensure_xml_declaration`
(`'<?xml version="1.0" encoding="utf-8"?>\n'`). -/
def xmlDeclLine : Str := S "<?xml version=\"1.0\" encoding=\"utf-8\"?>\n"

/-- Python `content.strip()`: remove leading and trailing whitespace. -/
def pyStrip (s : Str) : Str := (s.dropWhile pyWs).rdropWhile pyWs

/-- `_ensure_xml_declaration` (src/hl7_corrector.py:80-90): prepend the XML
declaration unless `content.strip()` already starts with `<?xml`. -/
def ensure_xml_declaration (content : Str) : Str × List CorrectionRecord :=
  if (S "<?xml").isPrefixOf (pyStrip content) then (content, [])
  else (xmlDeclLine ++ content, [.xmlDeclaration])

/-- The hard-wired correction list of `_apply_code_corrections`
(src/hl7_corrector.py:97-122): `(invalid_value, pattern, table)`. -/
def codeCorrectionEntries : List (Str × Str × Str) :=
  [(S "MCN.HLPracticeID", S "<HD.3>MCN.HLPracticeID</HD.3>", S "HL70301"),
   (S "HIPEHOS", S "<EI.4>HIPEHOS</EI.4>", S "HL70301"),
   (S "XXX", S ">XXX<", S "HL70070")]

/-- `_apply_code_corrections` (src/hl7_corrector.py:92-147): for each entry
whose `pattern` occurs in the content, look up a replacement and perform
`content.replace(pattern, pattern.replace(invalid_value, replacement))`
(a global substring replacement). -/
def apply_code_corrections (reg : Registry) (content : Str) :
    Str × List CorrectionRecord :=
  codeCorrectionEntries.foldl
    (fun (acc : Str × List CorrectionRecord) entry =>
      let (content, recs) := acc
      let (invalidValue, pattern, table) := entry
      if containsSub content pattern then
        match find_similar_code reg table invalidValue with
        | some replacement =>
          (replaceAll content pattern (replaceAll pattern invalidValue replacement),
           recs ++ [.codeFix invalidValue replacement table])
        | none => (content, recs)
      else (content, recs))
    (content, [])

/-! ### Gazelle error-driven fixers

The regex operations of `_fix_missing_field`, `_fix_invalid_code`,
`_fix_missing_component` and `_fix_empty_required_fields` are embedded by
dedicated scanners.  `re.search` scans for the leftmost position at which
the pattern matches; `re.sub` rewrites every non-overlapping match from left
to right.  In each concrete pattern the quantified classes (`\s*`, `\w+`,
`\d+`, `[^']+`, `[A-Z]{3}`, lazy `.*?`) are followed by literals outside the
class, so a maximal-munch (resp. shortest-extension for `.*?`) scan yields
exactly the match the backtracking engine finds. -/

/-- Match of `<CE\.3>(\s*)</CE\.3>` at the head of `s` (the tail of the
pattern of `_fix_empty_required_fields` / `_fix_missing_component`); yields
the length of the whitespace group. -/
def ce3EmptyAt (s : Str) : Option Nat :=
  if (S "<CE.3>").isPrefixOf s then
    let s2 := s.drop 6
    let w := (s2.takeWhile pyWs).length
    if (S "</CE.3>").isPrefixOf (s2.drop w) then some w else none
  else none

/-- Shortest-extension search for the lazy part `.*?<CE\.3>(\s*)</CE\.3>`
(flag `re.DOTALL`): the least offset `k` at which `ce3EmptyAt` succeeds,
together with the whitespace-group length there. -/
def findLazyCE3 : Str → Option (Nat × Nat)
  | [] => none
  | c :: t =>
    match ce3EmptyAt (c :: t) with
    | some w => some (0, w)
    | none => (findLazyCE3 t).map fun kw => (kw.1 + 1, kw.2)

/-- Match of the full pattern `(<SCH\.6>.*?<CE\.3>)(\s*)(</CE\.3>)`
(`re.DOTALL`) at the head of `s`: total match length, group 1 and group 2
(group 3 is the constant `</CE.3>`). -/
def matchSch6At (s : Str) : Option (Nat × Str × Str) :=
  if (S "<SCH.6>").isPrefixOf s then
    match findLazyCE3 (s.drop 7) with
    | some (k, w) =>
      some (7 + k + 6 + w + 7,
            S "<SCH.6>" ++ (s.drop 7).take k ++ S "<CE.3>",
            (s.drop (7 + k + 6)).take w)
    | none => none
  else none

/-- `re.sub` over the SCH-6.3 pattern with the conditional replacement
functions of src/hl7_corrector.py:157-168 and 403-415: a match whose
whitespace group strips to empty is rewritten to
`group(1) + 'HL70276' + group(3)` and appends `rec`; otherwise the match is
kept as is.  `fuel ≥ s.length` covers the whole subject. -/
def subSch6Empty (rec : CorrectionRecord) : Nat → Str → Str × List CorrectionRecord
  | 0, s => (s, [])
  | _ + 1, [] => ([], [])
  | fuel + 1, c :: t =>
    match matchSch6At (c :: t) with
    | some (len, g1, g2) =>
      let (rest, recs) := subSch6Empty rec fuel ((c :: t).drop len)
      if pyStrip g2 == [] then
        (g1 ++ S "HL70276" ++ S "</CE.3>" ++ rest, rec :: recs)
      else ((c :: t).take len ++ rest, recs)
    | none =>
      let (rest, recs) := subSch6Empty rec fuel t
      (c :: rest, recs)

/-- `_fix_empty_required_fields` (src/hl7_corrector.py:149-172): only in SIU
messages, fill every empty `SCH.6`→`CE.3` with `HL70276`. -/
def fix_empty_required_fields (content : Str) : Str × List CorrectionRecord :=
  if containsSub content (S "<SIU_S12") || containsSub content (S "<SIU_S13") then
    subSch6Empty .fieldInsertion content.length content
  else (content, [])

/-- Match of `:([A-Z]{3})\[1\]-(\d+)` at the head of `s`
(`_fix_missing_field`, src/hl7_corrector.py:231): segment and field number. -/
def fieldLocAt (s : Str) : Option (Str × Str) :=
  match s with
  | co :: a :: b :: c :: rest =>
    if co == ':' && isUpperCh a && isUpperCh b && isUpperCh c &&
        (S "[1]-").isPrefixOf rest then
      let ds := (rest.drop 4).takeWhile isDigitCh
      if ds.isEmpty then none else some ([a, b, c], ds)
    else none
  | _ => none

/-- `re.search` scan for `fieldLocAt`. -/
def searchFieldLoc : Str → Option (Str × Str)
  | [] => none
  | c :: t =>
    match fieldLocAt (c :: t) with
    | some r => some r
    | none => searchFieldLoc t

/-- Match of `(<SCH\.20>)(\s*)(</\w+\.\d+>)` at the head of `s`
(src/hl7_corrector.py:241): total length and group 3 (group 1 is the
constant `<SCH.20>`). -/
def matchSch20At (s : Str) : Option (Nat × Str) :=
  if (S "<SCH.20>").isPrefixOf s then
    let s1 := s.drop 8
    let w := (s1.takeWhile pyWs).length
    let s2 := s1.drop w
    if (S "</").isPrefixOf s2 then
      let s3 := s2.drop 2
      let wd := s3.takeWhile isWordCh
      if !wd.isEmpty && (s3.drop wd.length).head? == some '.' then
        let s4 := s3.drop (wd.length + 1)
        let dg := s4.takeWhile isDigitCh
        if !dg.isEmpty && (s4.drop dg.length).head? == some '>' then
          some (8 + w + 2 + wd.length + 1 + dg.length + 1,
                S "</" ++ wd ++ [Char.ofNat 46] ++ dg ++ [Char.ofNat 62])
        else none
      else none
    else none
  else none

/-- `re.sub` over the SCH-20 pattern (src/hl7_corrector.py:241-256): every
match is rewritten to `group(1) + 'SYSTEM^AUTO^CORRECTOR' + group(3)` and
appends a record. -/
def subSch20 (location reason : Str) : Nat → Str → Str × List CorrectionRecord
  | 0, s => (s, [])
  | _ + 1, [] => ([], [])
  | fuel + 1, c :: t =>
    match matchSch20At (c :: t) with
    | some (len, g3) =>
      let (rest, recs) := subSch20 location reason fuel ((c :: t).drop len)
      (S "<SCH.20>" ++ S "SYSTEM^AUTO^CORRECTOR" ++ g3 ++ rest,
       .gazelleMissingField location reason :: recs)
    | none =>
      let (rest, recs) := subSch20 location reason fuel t
      (c :: rest, recs)

/-- `_fix_missing_field` (src/hl7_corrector.py:228-258): parse the location;
only `SCH-20` is actionable, and only when the empty-field pattern occurs. -/
def fix_missing_field (content location description : Str) :
    Str × List CorrectionRecord :=
  match searchFieldLoc location with
  | none => (content, [])
  | some (seg, fld) =>
    if seg == S "SCH" && fld == S "20" then
      subSch20 location description content.length content
    else (content, [])

/-- Match of `(?:value|code) '([^']+)'` at the head of `s`
(src/hl7_corrector.py:270): the quoted run. -/
def valueCodeAt (s : Str) : Option Str :=
  let quote : Char := Char.ofNat 39
  let grab (s2 : Str) : Option Str :=
    let r := s2.takeWhile fun c => c != quote
    if !r.isEmpty && (s2.drop r.length).head? == some quote then some r else none
  if (S "value " ++ [quote]).isPrefixOf s then grab (s.drop 7)
  else if (S "code " ++ [quote]).isPrefixOf s then grab (s.drop 6)
  else none

/-- `re.search` scan for `valueCodeAt`: the extracted invalid value. -/
def searchValueCode : Str → Option Str
  | [] => none
  | c :: t =>
    match valueCodeAt (c :: t) with
    | some r => some r
    | none => searchValueCode t

/-- Match of `\[(HL7\d+)(?:_[A-Z]+)?\]` at the head of `s`
(src/hl7_corrector.py:272): group 1, i.e. `HL7` plus the digit run. -/
def tableAt (s : Str) : Option Str :=
  if (S "[HL7").isPrefixOf s then
    let s1 := s.drop 4
    let ds := s1.takeWhile isDigitCh
    if ds.isEmpty then none
    else
      let s2 := s1.drop ds.length
      if s2.head? == some ']' then some (S "HL7" ++ ds)
      else if s2.head? == some (Char.ofNat 95) then
        let us := (s2.drop 1).takeWhile isUpperCh
        if !us.isEmpty && (s2.drop (1 + us.length)).head? == some ']' then
          some (S "HL7" ++ ds)
        else none
      else none
  else none

/-- `re.search` scan for `tableAt`: the referenced table name. -/
def searchTable : Str → Option Str
  | [] => none
  | c :: t =>
    match tableAt (c :: t) with
    | some r => some r
    | none => searchTable t

/-- Match of `code system '([^']+)'` at the head of `s`
(src/hl7_corrector.py:273). -/
def codeSystemAt (s : Str) : Option Str :=
  let quote : Char := Char.ofNat 39
  if (S "code system " ++ [quote]).isPrefixOf s then
    let s2 := s.drop 13
    let r := s2.takeWhile fun c => c != quote
    if !r.isEmpty && (s2.drop r.length).head? == some quote then some r else none
  else none

/-- `re.search` scan for `codeSystemAt`: the reported wrong code system. -/
def searchCodeSystem : Str → Option Str
  | [] => none
  | c :: t =>
    match codeSystemAt (c :: t) with
    | some r => some r
    | none => searchCodeSystem t

/-- `_fix_invalid_code` (src/hl7_corrector.py:260-384).  Extract the quoted
value, the table and (optionally) the wrong code system from the
description.  If the value is valid in the table and a different code system
was reported, clear every occurrence of `<CE.3>system</CE.3>` (a global
`re.sub` of a literal) and return; otherwise, when the value is invalid,
look up a replacement and apply the first applicable global literal
substitution (`>value<`, then `<CE.1>value</CE.1>`, then
`<SPS.1><CE.1>value</CE.1>`, then `>value<` again from the dead third
`ce_patterns` entry). -/
def fix_invalid_code (reg : Registry) (content location description : Str) :
    Str × List CorrectionRecord :=
  let _ := location
  match searchValueCode description with
  | none => (content, [])
  | some invalidValue =>
    let invalidCodesystem := searchCodeSystem description
    let fullTable := (searchTable description).getD (S "Unknown")
    let isCodeValid := is_valid_code reg fullTable invalidValue
    let ce3Result : Option (Str × List CorrectionRecord) :=
      match invalidCodesystem with
      | some sys =>
        if isCodeValid && !(sys == fullTable) then
          let pat := S "<CE.3>" ++ sys ++ S "</CE.3>"
          if containsSub content pat then
            some (replaceAll content pat (S "<CE.3></CE.3>"),
                  [.gazelleCodeSystemFix sys invalidValue fullTable description])
          else none
        else none
      | none => none
    match ce3Result with
    | some out => out
    | none =>
      if !isCodeValid then
        match find_similar_code reg fullTable invalidValue with
        | none => (content, [])
        | some correctValue =>
          let mk := fun pat rep =>
            (replaceAll content pat rep,
             [CorrectionRecord.gazelleCodeFix invalidValue correctValue
                fullTable description])
          let p1 := S ">" ++ invalidValue ++ S "<"
          if containsSub content p1 then mk p1 (S ">" ++ correctValue ++ S "<")
          else
            let q1 := S "<CE.1>" ++ invalidValue ++ S "</CE.1>"
            let q2 := S "<SPS.1><CE.1>" ++ invalidValue ++ S "</CE.1>"
            if containsSub content q1 then
              mk q1 (S "<CE.1>" ++ correctValue ++ S "</CE.1>")
            else if containsSub content q2 then
              mk q2 (S "<SPS.1><CE.1>" ++ correctValue ++ S "</CE.1>")
            else if containsSub content p1 then
              mk p1 (S ">" ++ correctValue ++ S "<")
            else (content, [])
      else (content, [])

/-- `_fix_missing_component` (src/hl7_corrector.py:386-419): parse the
`:SEG[1]-n[1].m` location; only `SCH-6.3` is actionable. -/
def componentLocAt (s : Str) : Option (Str × Str × Str) :=
  match s with
  | co :: a :: b :: c :: rest =>
    if co == ':' && isUpperCh a && isUpperCh b && isUpperCh c &&
        (S "[1]-").isPrefixOf rest then
      let ds := (rest.drop 4).takeWhile isDigitCh
      if ds.isEmpty then none
      else
        let rest2 := rest.drop (4 + ds.length)
        if (S "[1].").isPrefixOf rest2 then
          let cs := (rest2.drop 4).takeWhile isDigitCh
          if cs.isEmpty then none else some ([a, b, c], ds, cs)
        else none
    else none
  | _ => none

/-- `re.search` scan for `componentLocAt`. -/
def searchComponentLoc : Str → Option (Str × Str × Str)
  | [] => none
  | c :: t =>
    match componentLocAt (c :: t) with
    | some r => some r
    | none => searchComponentLoc t

/-- `_fix_missing_component` (src/hl7_corrector.py:386-419). -/
def fix_missing_component (content location description : Str) :
    Str × List CorrectionRecord :=
  match searchComponentLoc location with
  | none => (content, [])
  | some (seg, fld, comp) =>
    if seg == S "SCH" && fld == S "6" && comp == S "3" then
      subSch6Empty (.gazelleMissingComponent location description)
        content.length content
    else (content, [])

/-- The per-error dispatch of `_apply_gazelle_error_fixes`
(src/hl7_corrector.py:196-224): skip warnings, then route on error type and
description keywords. -/
def processGazelleError (reg : Registry) (content : Str) (e : GazelleError) :
    Str × List CorrectionRecord :=
  if !e.severity.isEmpty && upperAscii e.severity == S "WARNING" then
    (content, [])
  else if e.etype == S "Cardinality" &&
      containsSub (lowerAscii e.description) (S "missing") then
    fix_missing_field content e.location e.description
  else if (containsSub e.etype (S "Code") ||
        containsSub (lowerAscii e.etype) (S "code")) &&
      containsSub (lowerAscii e.description) (S "not member of") then
    fix_invalid_code reg content e.location e.description
  else if containsSub (lowerAscii e.description) (S "required") &&
      containsSub (lowerAscii e.description) (S "missing") then
    fix_missing_component content e.location e.description
  else (content, [])

/-- `_apply_gazelle_error_fixes` (src/hl7_corrector.py:174-226): fold the
dispatch over the error list (the empty list returns the content as is). -/
def apply_gazelle_error_fixes (reg : Registry) (content : Str)
    (errors : List GazelleError) : Str × List CorrectionRecord :=
  errors.foldl
    (fun (acc : Str × List CorrectionRecord) e =>
      let (c, recs) := processGazelleError reg acc.1 e
      (c, acc.2 ++ recs))
    (content, [])

/-! ### Input decoding and `prepare_message`

`prepare_message` accepts bytes or `str`.  Bytes are decoded with
`utf-8-sig` inside a bare `try`, falling back to `utf-8` with
`errors='ignore'`.  The CPython strict UTF-8 decoder (rejecting overlong
forms, surrogates, out-of-range code points and truncated sequences) is
embedded by `decodeUtf8Strict`; the `ignore` handler drops the maximal
invalid subpart and re-decodes from the next byte.  The final
`content.encode('utf-8')` of `prepare_message` is *not* protected by any
`try` and raises `UnicodeEncodeError` when the content holds a lone
surrogate, which only a `str` input can introduce. -/

/-- A UTF-8 continuation byte. -/
def isContByte (b : Nat) : Bool := 0x80 ≤ b && b ≤ 0xBF

/-- Strict UTF-8 decoding (`bytes.decode('utf-8')`): `Except` models the
`UnicodeDecodeError` it can raise. -/
def decodeUtf8Strict : List Nat → Except Unit Str
  | [] => .ok []
  | b :: rest =>
    if b ≤ 0x7F then
      (decodeUtf8Strict rest).map (Char.ofNat b :: ·)
    else if 0xC2 ≤ b && b ≤ 0xDF then
      match rest with
      | c1 :: rest2 =>
        if isContByte c1 then
          (decodeUtf8Strict rest2).map
            (Char.ofNat ((b - 0xC0) * 64 + (c1 - 0x80)) :: ·)
        else .error ()
      | [] => .error ()
    else if 0xE0 ≤ b && b ≤ 0xEF then
      match rest with
      | c1 :: c2 :: rest2 =>
        let cp := (b - 0xE0) * 4096 + (c1 - 0x80) * 64 + (c2 - 0x80)
        if isContByte c1 && isContByte c2 && 0x800 ≤ cp &&
            !(0xD800 ≤ cp && cp ≤ 0xDFFF) then
          (decodeUtf8Strict rest2).map (Char.ofNat cp :: ·)
        else .error ()
      | _ => .error ()
    else if 0xF0 ≤ b && b ≤ 0xF4 then
      match rest with
      | c1 :: c2 :: c3 :: rest2 =>
        let cp := (b - 0xF0) * 262144 + (c1 - 0x80) * 4096 +
          (c2 - 0x80) * 64 + (c3 - 0x80)
        if isContByte c1 && isContByte c2 && isContByte c3 &&
            0x10000 ≤ cp && cp ≤ 0x10FFFF then
          (decodeUtf8Strict rest2).map (Char.ofNat cp :: ·)
        else .error ()
      | _ => .error ()
    else .error ()

/-- `bytes.decode('utf-8-sig')`: strip a UTF-8 byte-order mark, then strict
decoding. -/
def decodeUtf8Sig (bs : List Nat) : Except Unit Str :=
  decodeUtf8Strict (if [0xEF, 0xBB, 0xBF].isPrefixOf bs then bs.drop 3 else bs)

/-- `bytes.decode('utf-8', errors='ignore')`: total decoding, dropping
invalid bytes.  On an invalid sequence the lead byte alone is dropped and
decoding restarts at the next byte — this yields the same character stream
as CPython's handler, which drops the maximal invalid subpart: any
continuation bytes of the dropped subpart are invalid lead bytes and are
dropped in turn, while a following valid byte (for example the `A` of
`b'\xe0A'`, which decodes to `'A'`) is re-decoded just as CPython
re-decodes it after the error span. -/
def decodeUtf8Ignore : List Nat → Str
  | [] => []
  | b :: rest =>
    if b ≤ 0x7F then Char.ofNat b :: decodeUtf8Ignore rest
    else if 0xC2 ≤ b && b ≤ 0xDF then
      match rest with
      | c1 :: rest2 =>
        if isContByte c1 then
          Char.ofNat ((b - 0xC0) * 64 + (c1 - 0x80)) :: decodeUtf8Ignore rest2
        else decodeUtf8Ignore (c1 :: rest2)
      | [] => []
    else if 0xE0 ≤ b && b ≤ 0xEF then
      match rest with
      | c1 :: c2 :: rest2 =>
        let cp := (b - 0xE0) * 4096 + (c1 - 0x80) * 64 + (c2 - 0x80)
        if isContByte c1 && isContByte c2 && 0x800 ≤ cp &&
            !(0xD800 ≤ cp && cp ≤ 0xDFFF) then
          Char.ofNat cp :: decodeUtf8Ignore rest2
        else decodeUtf8Ignore (c1 :: c2 :: rest2)
      | shortTail => decodeUtf8Ignore shortTail
    else if 0xF0 ≤ b && b ≤ 0xF4 then
      match rest with
      | c1 :: c2 :: c3 :: rest2 =>
        let cp := (b - 0xF0) * 262144 + (c1 - 0x80) * 4096 +
          (c2 - 0x80) * 64 + (c3 - 0x80)
        if isContByte c1 && isContByte c2 && isContByte c3 &&
            0x10000 ≤ cp && cp ≤ 0x10FFFF then
          Char.ofNat cp :: decodeUtf8Ignore rest2
        else decodeUtf8Ignore (c1 :: c2 :: c3 :: rest2)
      | shortTail => decodeUtf8Ignore shortTail
    else decodeUtf8Ignore rest

/-- UTF-8 encoding of one character (`str.encode('utf-8')`). -/
def encodeChar (c : Char) : List Nat :=
  let n := c.toNat
  if n < 0x80 then [n]
  else if n < 0x800 then [0xC0 + n / 64, 0x80 + n % 64]
  else if n < 0x10000 then
    [0xE0 + n / 4096, 0x80 + n / 64 % 64, 0x80 + n % 64]
  else
    [0xF0 + n / 262144, 0x80 + n / 4096 % 64, 0x80 + n / 64 % 64, 0x80 + n % 64]

/-- `content.encode('utf-8')`. -/
def encodeUtf8 (s : Str) : List Nat := s.foldr (fun c acc => encodeChar c ++ acc) []

/-- A Unicode scalar value.  CPython's UTF-8 encoder accepts exactly these:
`str.encode('utf-8')` raises `UnicodeEncodeError` on a lone surrogate
U+D800–U+DFFF (every Python `str` code point is below 0x110000). -/
def isUnicodeScalar (n : Nat) : Bool :=
  n < 0x110000 && !(0xD800 ≤ n && n ≤ 0xDFFF)

/-- The public input domain of `prepare_message`: bytes or `str`.  A Python
`str` is carried as its list of code points because — unlike Lean `Char` —
it may contain lone surrogates (`'\ud800'` is a legal Python string). -/
inductive XmlInput where
  | bytes (bs : List Nat) : XmlInput
  | str (cps : List Nat) : XmlInput
deriving DecidableEq, Repr

/-- The correction pipeline of `prepare_message` on decoded content
(src/hl7_corrector.py:46-60): BOM removal, XML declaration, code
corrections, empty required fields, then — only when the error list is
truthy (non-empty) — the Gazelle error-driven fixes. -/
def prepareMessagePipeline (reg : Registry) (gazelleErrors : List GazelleError)
    (content : Str) : Str × List CorrectionRecord :=
  let (c1, r1) := remove_bom content
  let (c2, r2) := ensure_xml_declaration c1
  let (c3, r3) := apply_code_corrections reg c2
  let (c4, r4) := fix_empty_required_fields c3
  let (c5, r5) :=
    if gazelleErrors.isEmpty then (c4, [])
    else apply_gazelle_error_fixes reg c4 gazelleErrors
  (c5, r1 ++ r2 ++ r3 ++ r4 ++ r5)

/-- `HL7MessageCorrector.prepare_message` (src/hl7_corrector.py:21-65), with
the exception behaviour explicit: `priorCorrections` is the state of
`self.corrections_made` left by any earlier call on the same instance; the
body resets it to `[]` before doing anything else.  The byte decode is
`try: utf-8-sig; except: utf-8 with errors ignored`, so the error of the
strict decoder is caught.  The final `content.encode('utf-8')`
(src/hl7_corrector.py:63) sits outside any `try` and raises
`UnicodeEncodeError` when the content holds a lone surrogate; bytes inputs
decode to scalar values only, and no correction step ever removes a
non-ASCII code point (the only spans removed are a leading U+FEFF, exact
ASCII literal patterns, and `\s*` groups), so the encode fails exactly when
a `str` input contains a lone surrogate.  That failure is therefore checked
at the input boundary — where the code points are still representable —
and surfaces as `.error`; on the scalar-only remainder `Str` (`List Char`)
represents the content exactly and the encode is total. -/
def prepare_message (reg : Registry) (priorCorrections : List CorrectionRecord)
    (input : XmlInput) (gazelleErrors : List GazelleError) :
    Except Unit (List Nat × List CorrectionRecord) :=
  let selfCorrections : List CorrectionRecord := []  -- self.corrections_made = []
  let _ := priorCorrections
  let contentE : Except Unit Str :=
    match input with
    | .bytes bs =>
      match decodeUtf8Sig bs with
      | .ok s => .ok s
      | .error _ => .ok (decodeUtf8Ignore bs)
    | .str cps =>
      if cps.all isUnicodeScalar then .ok (cps.map Char.ofNat)
      else .error ()  -- UnicodeEncodeError from the final content.encode('utf-8')
  match contentE with
  | .error e => .error e
  | .ok content =>
    let (c, recs) := prepareMessagePipeline reg gazelleErrors content
    .ok (encodeUtf8 c, selfCorrections ++ recs)

/-- Total wrapper over `prepare_message` used by the dashboard loop model
(the `.error` branch is unreachable for the bytes inputs the loop passes —
see the C10 theorems). -/
def prepareMessageRun (reg : Registry) (input : XmlInput)
    (gazelleErrors : List GazelleError) : List Nat × List CorrectionRecord :=
  match prepare_message reg [] input gazelleErrors with
  | .ok out => out
  | .error _ => ([], [])

/-! ### The correction loop of `retry_auto_correct`
(src/dashboard_app.py:1074-1240)

The loop alternates an external validation (a subprocess whose parsed output
yields a status string and an error list) with a correction pass.  The
validator is abstracted as an oracle indexed by the iteration number.  File
I/O, the database fall-backs and the report building around the loop are
omitted; the loop state carries exactly the variables the loop mutates. -/

/-- Parsed outcome of one validator submission: the `status` string and the
`GAZELLE_ERRORS_JSON` error list. -/
structure ValidationOutcome where
  status : Str
  errors : List GazelleError
deriving DecidableEq, Repr

/-- The mutable state of the `while` loop. -/
structure LoopState where
  iteration : Nat
  content : List Nat
  totalCorrections : Nat
  allCorrections : List CorrectionRecord
  detailedErrors : List GazelleError
  status : Str
deriving DecidableEq, Repr

/-- One `while iteration < max_iterations` loop, fuel-indexed (any
`fuel ≥ maxIterations` makes the fuel guard unreachable).  Body: increment
the counter, validate, stop on `PASSED` or an empty error list, run a
correction pass, stop when it made no corrections, otherwise accumulate and
continue on the corrected content. -/
def correctionLoop (reg : Registry) (oracle : Nat → ValidationOutcome)
    (maxIterations : Nat) : Nat → LoopState → LoopState
  | 0, s => s
  | fuel + 1, s =>
    if s.iteration < maxIterations then
      let iter := s.iteration + 1
      let v := oracle iter
      let s := { s with iteration := iter, status := v.status,
                        detailedErrors := v.errors }
      if s.status == S "PASSED" || s.detailedErrors.isEmpty then s
      else
        let (correctedContent, correctionsList) :=
          prepareMessageRun reg (.bytes s.content) s.detailedErrors
        if correctionsList.length == 0 then s
        else
          correctionLoop reg oracle maxIterations fuel
            { s with content := correctedContent,
                     totalCorrections := s.totalCorrections + correctionsList.length,
                     allCorrections := s.allCorrections ++ correctionsList }
    else s

/-- `retry_auto_correct` (loop part): the pre-validation structural pass
with `gazelle_errors=[]`, then the correction loop started at iteration 0
with `status = 'UNKNOWN'`. -/
def retry_auto_correct (reg : Registry) (oracle : Nat → ValidationOutcome)
    (maxIterations : Nat) (content0 : List Nat)
    (detailedErrors0 : List GazelleError) : LoopState :=
  let (pre, preRecs) := prepareMessageRun reg (.bytes content0) []
  let s0 : LoopState :=
    if preRecs.length > 0 then
      { iteration := 0, content := pre, totalCorrections := preRecs.length,
        allCorrections := preRecs, detailedErrors := detailedErrors0,
        status := S "UNKNOWN" }
    else
      { iteration := 0, content := content0, totalCorrections := 0,
        allCorrections := [], detailedErrors := detailedErrors0,
        status := S "UNKNOWN" }
  correctionLoop reg oracle maxIterations maxIterations s0

/-! ## Theorems -/

/-- Helper: `find_similar_code` returns `none` exactly on an absent table or
an empty code set (src/hl7_code_tables.py:118-146). -/
theorem find_similar_code_eq_none_iff (reg : Registry) (table v : Str) :
    find_similar_code reg table v = none ↔
      lookupTable reg table = none ∨ lookupTable reg table = some [] := by
  unfold find_similar_code
  cases hl : lookupTable reg table with
  | none => simp
  | some codes =>
    cases codes with
    | nil => simp
    | cons c cs =>
      simp only [Option.some.injEq, reduceCtorEq, or_self, iff_false]
      intro h
      rw [if_neg (by simp)] at h
      split at h
      · exact absurd h (by simp)
      · split at h
        · exact absurd h (by simp)
        · split at h
          · exact absurd h (by simp)
          · split at h
            · exact absurd h (by simp)
            · exact absurd h (by simp)

/-- C4.  Every suggestion of `find_similar_code` is a member of the table's
valid set: if it returns `some v`, then `is_valid_code` accepts `v` for the
same table.  The preferred-code branches return a code only after a
membership test, and the fallback returns the first stored code of a
non-empty table. -/
theorem find_similar_code_suggests_valid (reg : Registry) (table code v : Str)
    (h : find_similar_code reg table code = some v) :
    is_valid_code reg table v = true := by
  unfold find_similar_code at h
  unfold is_valid_code
  cases hl : lookupTable reg table with
  | none => simp only [hl] at h; exact absurd h (by simp)
  | some codes =>
    simp only [hl] at h ⊢
    suffices hv : v ∈ codes by
      simpa only [List.contains, List.elem_eq_mem, decide_eq_true_eq] using hv
    by_cases hlen : (codes.length == 0) = true
    · rw [if_pos hlen] at h; exact absurd h (by simp)
    · rw [if_neg hlen] at h
      by_cases hs : (table == S "HL70070" && codes.contains (S "SER")) = true
      · rw [if_pos hs] at h
        simp only [Option.some.injEq] at h
        subst h
        exact List.elem_iff.mp (Bool.and_eq_true _ _ |>.mp hs).2
      · rw [if_neg hs] at h
        by_cases hb : (table == S "HL70070" && codes.contains (S "BLD")) = true
        · rw [if_pos hb] at h
          simp only [Option.some.injEq] at h
          subst h
          exact List.elem_iff.mp (Bool.and_eq_true _ _ |>.mp hb).2
        · rw [if_neg hb] at h
          by_cases ho : (table == S "HL70070" && codes.contains (S "OTH")) = true
          · rw [if_pos ho] at h
            simp only [Option.some.injEq] at h
            subst h
            exact List.elem_iff.mp (Bool.and_eq_true _ _ |>.mp ho).2
          · rw [if_neg ho] at h
            by_cases hL : (table == S "HL70301" && codes.contains (S "L")) = true
            · rw [if_pos hL] at h
              simp only [Option.some.injEq] at h
              subst h
              exact List.elem_iff.mp (Bool.and_eq_true _ _ |>.mp hL).2
            · rw [if_neg hL] at h
              exact List.mem_of_mem_head? h

/-- Witness for C4 at a concrete registry. -/
theorem find_similar_code_suggests_valid_witness :
    find_similar_code [(S "HL70070", [S "SER"])] (S "HL70070") (S "XXX") =
      some (S "SER") ∧
    is_valid_code [(S "HL70070", [S "SER"])] (S "HL70070") (S "SER") = true :=
  ⟨by decide,
   find_similar_code_suggests_valid [(S "HL70070", [S "SER"])] (S "HL70070")
     (S "XXX") (S "SER") (by decide)⟩

/-- C2, counterexample.  The fallback of `find_similar_code` is
`list(valid_codes)[0]` on the set's enumeration order, which Python leaves
unspecified — it is not the lexicographically first member.  With table
`X` stored in enumeration order `["B", "A"]`, the function returns `B`
while the lexicographically first valid code is `A`. -/
theorem find_similar_code_fallback_not_lexicographic :
    find_similar_code [(S "X", [S "B", S "A"])] (S "X") (S "Q") = some (S "B") ∧
    lexFirst [S "B", S "A"] = some (S "A") ∧
    (some (S "B") : Option Str) ≠ some (S "A") := by
  refine ⟨by decide, by decide, by decide⟩

/-- C2, amended.  When no table-specific preference applies, the fallback
returns the *first stored* code of the table's set in its (unspecified)
enumeration order — not the lexicographically first; and it returns `none`
exactly when the table is absent or its valid set is empty. -/
theorem find_similar_code_fallback_first_stored (reg : Registry)
    (table v : Str) (codes : List Str)
    (hl : lookupTable reg table = some codes)
    (hne : codes ≠ [])
    (h70 : table = S "HL70070" →
      codes.contains (S "SER") = false ∧ codes.contains (S "BLD") = false ∧
        codes.contains (S "OTH") = false)
    (h301 : table = S "HL70301" → codes.contains (S "L") = false) :
    find_similar_code reg table v = codes.head? ∧
    ∀ reg2 table2 v2, (find_similar_code reg2 table2 v2 = none ↔
      lookupTable reg2 table2 = none ∨ lookupTable reg2 table2 = some []) := by
  refine ⟨?_, fun reg2 table2 v2 => find_similar_code_eq_none_iff reg2 table2 v2⟩
  unfold find_similar_code
  simp only [hl]
  have hlen : ¬((codes.length == 0) = true) := by
    simp [List.length_eq_zero, hne]
  rw [if_neg hlen]
  have hs : ¬((table == S "HL70070" && codes.contains (S "SER")) = true) := by
    intro hx
    obtain ⟨h1, h2⟩ := Bool.and_eq_true _ _ |>.mp hx
    exact absurd ((h70 (by simpa using h1)).1) (by rw [h2]; decide)
  have hb : ¬((table == S "HL70070" && codes.contains (S "BLD")) = true) := by
    intro hx
    obtain ⟨h1, h2⟩ := Bool.and_eq_true _ _ |>.mp hx
    exact absurd ((h70 (by simpa using h1)).2.1) (by rw [h2]; decide)
  have ho : ¬((table == S "HL70070" && codes.contains (S "OTH")) = true) := by
    intro hx
    obtain ⟨h1, h2⟩ := Bool.and_eq_true _ _ |>.mp hx
    exact absurd ((h70 (by simpa using h1)).2.2) (by rw [h2]; decide)
  have hL : ¬((table == S "HL70301" && codes.contains (S "L")) = true) := by
    intro hx
    obtain ⟨h1, h2⟩ := Bool.and_eq_true _ _ |>.mp hx
    exact absurd (h301 (by simpa using h1)) (by rw [h2]; decide)
  rw [if_neg hs, if_neg hb, if_neg ho, if_neg hL]

/-- Witness for the amended C2 at a concrete registry whose stored order is
not sorted. -/
theorem find_similar_code_fallback_first_stored_witness :
    find_similar_code [(S "X", [S "B", S "A"])] (S "X") (S "Q") =
      ([S "B", S "A"] : List Str).head? ∧
    ∀ reg2 table2 v2, (find_similar_code reg2 table2 v2 = none ↔
      lookupTable reg2 table2 = none ∨ lookupTable reg2 table2 = some []) :=
  find_similar_code_fallback_first_stored [(S "X", [S "B", S "A"])] (S "X")
    (S "Q") [S "B", S "A"] (by decide) (by decide) (by decide) (by decide)

/-- C8.  A diagnostic location that does not match the `:SEG[1]-n` grammar
makes `_fix_missing_field` return the content unchanged with no record, and
one that does not match `:SEG[1]-n[1].m` does the same for
`_fix_missing_component`; both are total functions of their inputs (the
embedding raises nothing). -/
theorem unparseable_location_skipped (content loc desc : Str)
    (hf : searchFieldLoc loc = none) (hc : searchComponentLoc loc = none) :
    fix_missing_field content loc desc = (content, []) ∧
    fix_missing_component content loc desc = (content, []) := by
  unfold fix_missing_field fix_missing_component
  rw [hf, hc]
  exact ⟨rfl, rfl⟩

/-- Witness for C8 at a concrete unparseable location. -/
theorem unparseable_location_skipped_witness :
    fix_missing_field (S "<A/>") (S "hl7shortpath:sch-20") (S "d") =
      (S "<A/>", []) ∧
    fix_missing_component (S "<A/>") (S "hl7shortpath:sch-20") (S "d") =
      (S "<A/>", []) :=
  unparseable_location_skipped (S "<A/>") (S "hl7shortpath:sch-20") (S "d")
    (by decide) (by decide)

/-- C9.  `prepare_message` resets `self.corrections_made` to `[]` before
doing anything else (src/hl7_corrector.py:33), so its result — including
the returned corrections list — is independent of whatever an earlier call
on the same instance accumulated. -/
theorem prepare_message_resets_corrections (reg : Registry)
    (prior₁ prior₂ : List CorrectionRecord) (input : XmlInput)
    (gaz : List GazelleError) :
    prepare_message reg prior₁ input gaz = prepare_message reg prior₂ input gaz := rfl

/-- C10, counterexample.  `prepare_message` is not total on `str` inputs:
the final `content.encode('utf-8')` (src/hl7_corrector.py:63) sits outside
any `try`, and a Python string holding a lone surrogate — here the
one-character string `'\ud800'` — makes it raise `UnicodeEncodeError`
instead of returning a pair. -/
theorem prepare_message_raises_on_lone_surrogate :
    prepare_message [] [] (.str [0xD800]) [] = .error () ∧
    isUnicodeScalar 0xD800 = false :=
  ⟨rfl, by decide⟩

/-- C10, amended.  `prepare_message` returns a (UTF-8 encoded bytes,
corrections) pair without raising for every bytes input — there the strict
`utf-8-sig` decode is the only fallible step and its error is caught by the
bare `except`, falling back to the total ignoring decoder — and for every
`str` input consisting of Unicode scalar values; a `str` containing a lone
surrogate instead raises `UnicodeEncodeError` at the final
`content.encode('utf-8')`, which is outside any `try`. -/
theorem prepare_message_total_except_lone_surrogates (reg : Registry)
    (prior : List CorrectionRecord) (gaz : List GazelleError) :
    (∀ bs, ∃ s recs,
      prepare_message reg prior (.bytes bs) gaz = .ok (encodeUtf8 s, recs)) ∧
    (∀ cps, cps.all isUnicodeScalar = true →
      ∃ s recs,
        prepare_message reg prior (.str cps) gaz = .ok (encodeUtf8 s, recs)) ∧
    (∀ cps, cps.all isUnicodeScalar = false →
      prepare_message reg prior (.str cps) gaz = .error ()) := by
  refine ⟨fun bs => ?_, fun cps h => ?_, fun cps h => ?_⟩
  · unfold prepare_message
    cases hd : decodeUtf8Sig bs with
    | ok s =>
      exact ⟨(prepareMessagePipeline reg gaz s).1,
        (prepareMessagePipeline reg gaz s).2, by simp [hd]⟩
    | error e =>
      exact ⟨(prepareMessagePipeline reg gaz (decodeUtf8Ignore bs)).1,
        (prepareMessagePipeline reg gaz (decodeUtf8Ignore bs)).2, by simp [hd]⟩
  · unfold prepare_message
    exact ⟨(prepareMessagePipeline reg gaz (cps.map Char.ofNat)).1,
      (prepareMessagePipeline reg gaz (cps.map Char.ofNat)).2, by simp [h]⟩
  · unfold prepare_message
    simp [h]

/-- Witness for the amended C10: a bytes input, a scalar-only `str` input
and a lone-surrogate `str` input, each at concrete values. -/
theorem prepare_message_total_except_lone_surrogates_witness :
    (∃ s recs,
      prepare_message [] [] (.bytes [0x3C]) [] = .ok (encodeUtf8 s, recs)) ∧
    (∃ s recs,
      prepare_message [] [] (.str [0x3C]) [] = .ok (encodeUtf8 s, recs)) ∧
    prepare_message [] [] (.str [0xD800]) [] = .error () :=
  ⟨(prepare_message_total_except_lone_surrogates [] [] []).1 [0x3C],
   (prepare_message_total_except_lone_surrogates [] [] []).2.1 [0x3C]
     (by decide),
   (prepare_message_total_except_lone_surrogates [] [] []).2.2 [0xD800]
     (by decide)⟩

/-- Helper for C6: the loop guard `iteration < max_iterations` keeps the
iteration counter at or below the ceiling, whatever the fuel. -/
theorem correctionLoop_iteration_le (reg : Registry)
    (oracle : Nat → ValidationOutcome) (maxIterations : Nat) :
    ∀ fuel s, s.iteration ≤ maxIterations →
      (correctionLoop reg oracle maxIterations fuel s).iteration ≤ maxIterations := by
  intro fuel
  induction fuel with
  | zero => intro s hs; exact hs
  | succ fuel ih =>
    intro s hs
    unfold correctionLoop
    by_cases hlt : s.iteration < maxIterations
    · rw [if_pos hlt]
      simp only []
      split
      · exact hlt
      · split
        · exact hlt
        · exact ih _ hlt
    · rw [if_neg hlt]
      exact hs

/-- C6.  The correction loop of `retry_auto_correct` performs at most
`max_iterations` iterations (hence at most that many validator submissions
inside the loop), and the final reported iteration count never exceeds the
ceiling, whatever the validator reports. -/
theorem retry_auto_correct_iterations_bounded (reg : Registry)
    (oracle : Nat → ValidationOutcome) (maxIterations : Nat)
    (content0 : List Nat) (detailedErrors0 : List GazelleError) :
    (retry_auto_correct reg oracle maxIterations content0
        detailedErrors0).iteration ≤ maxIterations := by
  unfold retry_auto_correct
  exact correctionLoop_iteration_le reg oracle maxIterations maxIterations _
    (by split <;> exact Nat.zero_le _)

/-- C7.  If a correcting pass inside the loop produces zero correction
records (and the validation of that iteration neither passed nor returned
an empty error list), the loop stops at that iteration: the result is the
state reached at that iteration, independent of the remaining iteration
budget, so no further correction pass or validator submission occurs. -/
theorem correction_loop_stops_on_zero_corrections (reg : Registry)
    (oracle : Nat → ValidationOutcome) (maxIterations fuel : Nat)
    (s : LoopState) (v : ValidationOutcome)
    (hlt : s.iteration < maxIterations)
    (ho : oracle (s.iteration + 1) = v)
    (hnd : (v.status == S "PASSED" || v.errors.isEmpty) = false)
    (hzero : (prepareMessageRun reg (.bytes s.content) v.errors).2.length = 0) :
    correctionLoop reg oracle maxIterations (fuel + 1) s =
      { s with iteration := s.iteration + 1, status := v.status,
               detailedErrors := v.errors } := by
  unfold correctionLoop
  rw [if_pos hlt]
  simp only []
  rw [ho]
  rw [if_neg (by simp [hnd]), if_pos (by simp [hzero])]

/-- Witness for C7: a stalled session at a concrete content, registry and
validator outcome. -/
theorem correction_loop_stops_on_zero_corrections_witness :
    correctionLoop []
      (fun _ => ⟨S "FAILED", [⟨S "Other", S "x", S "nothing", [], []⟩]⟩) 10 8
      ⟨0, encodeUtf8 (S "<?xml version=\"1.0\"?><ADT/>"), 0, [], [], S "UNKNOWN"⟩ =
      ⟨1, encodeUtf8 (S "<?xml version=\"1.0\"?><ADT/>"), 0, [],
        [⟨S "Other", S "x", S "nothing", [], []⟩], S "FAILED"⟩ :=
  correction_loop_stops_on_zero_corrections []
    (fun _ => ⟨S "FAILED", [⟨S "Other", S "x", S "nothing", [], []⟩]⟩) 10 7
    ⟨0, encodeUtf8 (S "<?xml version=\"1.0\"?><ADT/>"), 0, [], [], S "UNKNOWN"⟩
    ⟨S "FAILED", [⟨S "Other", S "x", S "nothing", [], []⟩]⟩
    (by decide) rfl (by decide) (by decide)

/-- C1, counterexample.  `_fix_invalid_code` is told (by the diagnostic
location) that the offending value sits at OBR-15.1, yet its replacement is
`content.replace(">XXX<", ">SER<")`, which also rewrites the occurrence of
the same literal value inside the unrelated element NTE-3. -/
theorem fix_invalid_code_changes_other_occurrences :
    (fix_invalid_code [(S "HL70070", [S "SER", S "OTH"])]
        (S "<OBR.15><CE.1>XXX</CE.1></OBR.15><NTE.3>XXX</NTE.3>")
        (S "hl7shortpath:OBR[1]-15[1].1[1]")
        (S "The value 'XXX' at location OBR-15 is not member of the value set [HL70070]")).1 =
      S "<OBR.15><CE.1>SER</CE.1></OBR.15><NTE.3>SER</NTE.3>" ∧
    containsSub (S "<OBR.15><CE.1>XXX</CE.1></OBR.15><NTE.3>XXX</NTE.3>")
      (S "<NTE.3>XXX</NTE.3>") = true ∧
    containsSub (S "<OBR.15><CE.1>SER</CE.1></OBR.15><NTE.3>SER</NTE.3>")
      (S "<NTE.3>XXX</NTE.3>") = false := by
  refine ⟨by decide, by decide, by decide⟩

/-- C1, amended.  A code replacement is applied as a global literal
substring substitution over the whole message content: every occurrence of
the offending pattern is rewritten (`str.replace` / `re.sub` replace all
occurrences), not only the occurrence at the structural element the
diagnostic addresses.  This holds both for the value-replacement branch of
`_fix_invalid_code` and for `_apply_code_corrections`. -/
theorem code_replacement_is_global (reg : Registry)
    (content content2 loc desc v r r2 : Str)
    (hv : searchValueCode desc = some v)
    (hinv : is_valid_code reg ((searchTable desc).getD (S "Unknown")) v = false)
    (hrep : find_similar_code reg ((searchTable desc).getD (S "Unknown")) v =
      some r)
    (hin : containsSub content (S ">" ++ v ++ S "<") = true)
    (hhd : containsSub content2 (S "<HD.3>MCN.HLPracticeID</HD.3>") = false)
    (hei : containsSub content2 (S "<EI.4>HIPEHOS</EI.4>") = false)
    (hxxx : containsSub content2 (S ">XXX<") = true)
    (hrep2 : find_similar_code reg (S "HL70070") (S "XXX") = some r2) :
    fix_invalid_code reg content loc desc =
      (replaceAll content (S ">" ++ v ++ S "<") (S ">" ++ r ++ S "<"),
       [.gazelleCodeFix v r ((searchTable desc).getD (S "Unknown")) desc]) ∧
    apply_code_corrections reg content2 =
      (replaceAll content2 (S ">XXX<") (replaceAll (S ">XXX<") (S "XXX") r2),
       [.codeFix (S "XXX") r2 (S "HL70070")]) := by
  constructor
  · unfold fix_invalid_code
    simp only [hv]
    simp only [hinv, Bool.false_and]
    cases hcs : searchCodeSystem desc with
    | none =>
      simp only [hrep, hin, Bool.not_false, if_true]
    | some sys =>
      simp only [Bool.false_eq_true, if_false, hrep, hin, Bool.not_false,
        if_true]
  · unfold apply_code_corrections codeCorrectionEntries
    simp only [List.foldl_cons, List.foldl_nil]
    simp only [hhd, hei, hxxx, Bool.false_eq_true, if_false, if_true, hrep2]
    simp only [List.nil_append]

/-- Witness for the amended C1: both global substitutions at concrete
inputs with two concrete tables loaded. -/
theorem code_replacement_is_global_witness :
    fix_invalid_code [(S "HL70301", [S "L"]), (S "HL70070", [S "SER"])]
        (S "<HD.3>BAD</HD.3>") (S "loc")
        (S "The value 'BAD' at MSH-4.3 is not member of the value set [HL70301]") =
      (replaceAll (S "<HD.3>BAD</HD.3>") (S ">" ++ S "BAD" ++ S "<")
         (S ">" ++ S "L" ++ S "<"),
       [.gazelleCodeFix (S "BAD") (S "L") (S "HL70301")
          (S "The value 'BAD' at MSH-4.3 is not member of the value set [HL70301]")]) ∧
    apply_code_corrections [(S "HL70301", [S "L"]), (S "HL70070", [S "SER"])]
        (S "<x>XXX</x>") =
      (replaceAll (S "<x>XXX</x>") (S ">XXX<")
         (replaceAll (S ">XXX<") (S "XXX") (S "SER")),
       [.codeFix (S "XXX") (S "SER") (S "HL70070")]) := by
  have h := code_replacement_is_global
    [(S "HL70301", [S "L"]), (S "HL70070", [S "SER"])]
    (S "<HD.3>BAD</HD.3>") (S "<x>XXX</x>") (S "loc")
    (S "The value 'BAD' at MSH-4.3 is not member of the value set [HL70301]")
    (S "BAD") (S "L") (S "SER")
    (by decide) (by decide) (by decide) (by decide) (by decide) (by decide)
    (by decide) (by decide)
  exact ⟨h.1, h.2⟩

/-- C3.  When the extracted code is already a valid member of the referenced
table, `_fix_invalid_code` never rewrites the code value: it either leaves
the content completely unchanged (appending no record), or — when a
different code system was reported and the literal
`<CE.3>system</CE.3>` occurs — clears exactly the `CE.3` designator
occurrences holding that reported wrong system (a substitution whose
pattern and replacement differ only in the designator text), leaving all
other content unchanged. -/
theorem fix_invalid_code_preserves_valid_code (reg : Registry)
    (content loc desc v : Str)
    (hv : searchValueCode desc = some v)
    (hvalid : is_valid_code reg ((searchTable desc).getD (S "Unknown")) v = true) :
    fix_invalid_code reg content loc desc = (content, []) ∨
    ∃ sys, searchCodeSystem desc = some sys ∧
      sys ≠ (searchTable desc).getD (S "Unknown") ∧
      containsSub content (S "<CE.3>" ++ sys ++ S "</CE.3>") = true ∧
      fix_invalid_code reg content loc desc =
        (replaceAll content (S "<CE.3>" ++ sys ++ S "</CE.3>")
           (S "<CE.3></CE.3>"),
         [.gazelleCodeSystemFix sys v ((searchTable desc).getD (S "Unknown"))
            desc]) := by
  unfold fix_invalid_code
  simp only [hv]
  simp only [hvalid, Bool.true_and, Bool.not_true, Bool.false_eq_true,
    if_false]
  cases hcs : searchCodeSystem desc with
  | none => left; rfl
  | some sys =>
    by_cases hst : (sys == (searchTable desc).getD (S "Unknown")) = true
    · left
      simp only [hst, Bool.not_true, Bool.false_eq_true, if_false]
    · rw [Bool.not_eq_true] at hst
      by_cases hct :
          containsSub content (S "<CE.3>" ++ sys ++ S "</CE.3>") = true
      · right
        refine ⟨sys, rfl, ne_of_beq_false hst, hct, ?_⟩
        simp only [hst, Bool.not_false, if_true, hct]
      · left
        rw [Bool.not_eq_true] at hct
        simp only [hst, Bool.not_false, if_true, hct, Bool.false_eq_true,
          if_false]

/-- Witness for C3 at a concrete message whose reported code is valid and
whose designator is the defect. -/
theorem fix_invalid_code_preserves_valid_code_witness :
    fix_invalid_code [(S "HL70070", [S "OTH"])]
        (S "<CE.1>OTH</CE.1><CE.3>L</CE.3>") (S "loc")
        (S "The code 'OTH' and code system 'L' at location x is not member of the value set [HL70070]") =
      (S "<CE.1>OTH</CE.1><CE.3>L</CE.3>", []) ∨
    ∃ sys, searchCodeSystem
        (S "The code 'OTH' and code system 'L' at location x is not member of the value set [HL70070]") =
        some sys ∧
      sys ≠ (searchTable
        (S "The code 'OTH' and code system 'L' at location x is not member of the value set [HL70070]")).getD
          (S "Unknown") ∧
      containsSub (S "<CE.1>OTH</CE.1><CE.3>L</CE.3>")
        (S "<CE.3>" ++ sys ++ S "</CE.3>") = true ∧
      fix_invalid_code [(S "HL70070", [S "OTH"])]
          (S "<CE.1>OTH</CE.1><CE.3>L</CE.3>") (S "loc")
          (S "The code 'OTH' and code system 'L' at location x is not member of the value set [HL70070]") =
        (replaceAll (S "<CE.1>OTH</CE.1><CE.3>L</CE.3>")
           (S "<CE.3>" ++ sys ++ S "</CE.3>") (S "<CE.3></CE.3>"),
         [.gazelleCodeSystemFix sys (S "OTH")
            ((searchTable
              (S "The code 'OTH' and code system 'L' at location x is not member of the value set [HL70070]")).getD
                (S "Unknown"))
            (S "The code 'OTH' and code system 'L' at location x is not member of the value set [HL70070]")]) :=
  fix_invalid_code_preserves_valid_code [(S "HL70070", [S "OTH"])]
    (S "<CE.1>OTH</CE.1><CE.3>L</CE.3>") (S "loc")
    (S "The code 'OTH' and code system 'L' at location x is not member of the value set [HL70070]")
    (S "OTH") (by decide) (by decide)

/-- Helper: `dropWhile` is the identity when the head fails the predicate. -/
theorem dropWhile_eq_self_of_head {p : Char → Bool} {l : Str} {c : Char}
    (h : l.head? = some c) (hc : p c = false) : l.dropWhile p = l := by
  cases l with
  | nil => simp at h
  | cons a t =>
    simp only [List.head?_cons, Option.some.injEq] at h
    subst h
    rw [List.dropWhile_cons, hc]
    simp

/-- Helper: trailing-whitespace removal keeps any leading block that ends in
a non-whitespace character. -/
theorem prefix_rdropWhile_append (a b : Str) (ch : Char)
    (ha : a.getLast? = some ch) (hch : pyWs ch = false) :
    a <+: (a ++ b).rdropWhile pyWs := by
  unfold List.rdropWhile
  rw [List.reverse_append, List.dropWhile_append]
  split
  · rw [dropWhile_eq_self_of_head (by rw [List.head?_reverse]; exact ha) hch,
      List.reverse_reverse]
  · rw [List.reverse_append, List.reverse_reverse]
    exact List.prefix_append a _

/-- Helper: a string whose `pyStrip` starts with `<?xml` cannot itself start
with the BOM character. -/
theorem not_bom_of_strip_xml (l : Str)
    (h : (S "<?xml").isPrefixOf (pyStrip l) = true) :
    [Char.ofNat 0xFEFF].isPrefixOf l = false := by
  by_contra hb
  rw [Bool.not_eq_false] at hb
  obtain ⟨t, rfl⟩ : ∃ t, l = Char.ofNat 0xFEFF :: t := by
    cases l with
    | nil => simp [List.isPrefixOf] at hb
    | cons c t =>
      simp only [List.isPrefixOf, List.isPrefixOf_nil_left, Bool.and_true,
        beq_iff_eq] at hb
      exact ⟨t, by rw [hb]⟩
  have hdw : (Char.ofNat 0xFEFF :: t).dropWhile pyWs =
      Char.ofNat 0xFEFF :: t := by
    rw [List.dropWhile_cons, show pyWs (Char.ofNat 0xFEFF) = false by decide]
    simp
  have hpre : (S "<?xml") <+: pyStrip (Char.ofNat 0xFEFF :: t) := by
    rw [← List.isPrefixOf_iff_prefix]
    exact h
  unfold pyStrip at hpre
  rw [hdw] at hpre
  have htrans : (S "<?xml") <+: (Char.ofNat 0xFEFF :: t) :=
    hpre.trans (List.rdropWhile_prefix _ _)
  rw [show (S "<?xml") = '<' :: (S "?xml") from rfl,
    List.cons_prefix_cons] at htrans
  exact absurd htrans.1 (by decide)

/-- Helper: after prepending the XML declaration, the stripped content
starts with `<?xml`. -/
theorem strip_xml_of_decl_prepend (l : Str) :
    (S "<?xml").isPrefixOf (pyStrip (xmlDeclLine ++ l)) = true := by
  have hsplit : xmlDeclLine ++ l =
      S "<?xml version=\"1.0\" encoding=\"utf-8\"?>" ++ (Char.ofNat 10 :: l) := by
    rw [show xmlDeclLine =
      S "<?xml version=\"1.0\" encoding=\"utf-8\"?>" ++ [Char.ofNat 10] by decide]
    simp
  rw [List.isPrefixOf_iff_prefix]
  unfold pyStrip
  rw [hsplit]
  rw [dropWhile_eq_self_of_head
    (l := S "<?xml version=\"1.0\" encoding=\"utf-8\"?>" ++ (Char.ofNat 10 :: l))
    (c := '<') (by rw [List.head?_append]; rfl) (by decide)]
  refine List.IsPrefix.trans ?_
    (prefix_rdropWhile_append _ _ (Char.ofNat 62) (by decide) (by decide))
  decide

/-- The structural-normalisation stage of `prepare_message`
(src/hl7_corrector.py:46-50): `_remove_bom` then `_ensure_xml_declaration`,
with the records both append. -/
def structuralNormalize (content : Str) : Str × List CorrectionRecord :=
  let r1 := remove_bom content
  let r2 := ensure_xml_declaration r1.1
  (r2.1, r1.2 ++ r2.2)

/-- Helper: the content produced by `_ensure_xml_declaration` always strips
to something starting with `<?xml`. -/
theorem strip_xml_after_ensure (c : Str) :
    (S "<?xml").isPrefixOf (pyStrip (ensure_xml_declaration c).1) = true := by
  unfold ensure_xml_declaration
  by_cases h : (S "<?xml").isPrefixOf (pyStrip c) = true
  · rw [if_pos h]
    exact h
  · rw [if_neg h]
    exact strip_xml_of_decl_prepend c

/-- C5.  Structural normalisation (`_remove_bom` followed by
`_ensure_xml_declaration`) is idempotent: a second application to the output
of a first application returns the content unchanged and appends zero
correction records. -/
theorem structural_normalization_idempotent (content : Str) :
    structuralNormalize (structuralNormalize content).1 =
      ((structuralNormalize content).1, []) := by
  have hq : (S "<?xml").isPrefixOf
      (pyStrip (structuralNormalize content).1) = true :=
    strip_xml_after_ensure (remove_bom content).1
  have hb := not_bom_of_strip_xml _ hq
  generalize hx : (structuralNormalize content).1 = x at hq hb ⊢
  unfold structuralNormalize remove_bom
  simp only []
  rw [if_neg (by rw [hb]; decide)]
  unfold ensure_xml_declaration
  rw [if_pos hq]
  rfl
